import Mathlib

/-!
Shallow embedding of `src/firmware/src/schedule.c` (Defconbots 2014 target
hardware): a tick counter (`now`), a fixed-capacity periodic callback table,
and a bitmap-managed one-shot callout table, serviced from a timer interrupt.

Machine integers are modelled as `Nat` with explicit reduction modulo the
container width where the C type can wrap (`uint32_t` → `% 2^32`,
`uint8_t` → `% 256`, `uint16_t` masks).  Function pointers are modelled as
`Nat` identifiers; invoking a handler is delegated to an explicit handler
semantics `sem : Nat → Sched → Sched` (a C handler may call back into the
scheduler API).  Each service/dispatch function additionally returns the
trace of handler invocations it performed, which is the observable behavior
the specification talks about.

Constants from headers not under `src/` are modelled from the spec where they
matter (see the doc comments of `_MILLISECOND`, `sizeofCallbackFn`,
`sizeofCallbackEvent`); the standard macros are taken at their universal
meanings: `SUCCESS`/`FAILURE` as `true`/`false`, `TRUE`/`FALSE` and the
`ScheduleMode` enum as `Bool`, and `_BV(i)` as `1 <<< i`.
-/

/-- Width of the `uint32_t` tick counter and time fields: values wrap mod `2^32`. -/
def u32Mod : Nat := 2 ^ 32

/-- Modelled from the spec: `config.h` is not under `src/`, so the constant
`_MILLISECOND` (ticks per requested time unit) is missing.  Spec §6 states the
core deals only in tick counts and that converting wall-clock units to ticks
is external to the core, so the conversion factor is 1. -/
def _MILLISECOND : Nat := 1

/-- Modelled from the spec: `schedule.h` is not under `src/`, so
`sizeof(CallbackFn)` is unknown.  On the MSP430 target a function pointer is
2 bytes. -/
def sizeofCallbackFn : Nat := 2

/-- Modelled from the spec: `schedule.h` is not under `src/`, so the layout of
`CallbackEvent` is unknown.  `schedule.c` accesses fields `enabled`, `func`,
`run_time` (uint32) and `next_run_time` (uint32); on the MSP430 target this
struct occupies 12 bytes (1 byte `enabled` + 1 padding + 2 byte pointer +
4 + 4).  Any C platform gives `sizeof(CallbackEvent) > sizeof(CallbackFn)`,
which is all the capacity-check analysis below relies on. -/
def sizeofCallbackEvent : Nat := 12

/-- The bound used by `CallbackRegister`'s capacity check:
`sizeof(callback_store)/sizeof(CallbackFn)`
`= MAX_CALLBACK_CNT * sizeof(CallbackEvent) / sizeof(CallbackFn)`.
Note this is NOT `MAX_CALLBACK_CNT` (the element count of the array): the
source divides by the size of a function pointer, not of an array element. -/
def callbackStoreBound (maxCb : Nat) : Nat :=
  maxCb * sizeofCallbackEvent / sizeofCallbackFn

/-- One entry of `callback_store` (struct `CallbackEvent` of `schedule.h`,
fields as accessed by `schedule.c`). -/
structure CallbackEvent where
  enabled : Bool
  func : Nat
  run_time : Nat
  next_run_time : Nat
deriving Repr, DecidableEq, Inhabited

/-- One entry of `callout_store` (struct `CalloutEvent`, `schedule.c` lines 38-42). -/
structure CalloutEvent where
  func : Nat
  run_time : Nat
deriving Repr, DecidableEq, Inhabited

/-- The mutable globals of `schedule.c`: the tick counter `now`, the callback
table (`event_count`, `callback_store`) and the callout table (`callout_map`,
`callout_store`).  The stores are lists of fixed length (the static arrays);
reads use `getD` with the zero-initialised default. -/
structure Sched where
  now : Nat
  event_count : Nat
  callback_store : List CallbackEvent
  callout_map : Nat
  callout_store : List CalloutEvent
deriving Repr, DecidableEq

/-- Zero-initialised static state: all counters 0, empty bitmap, stores filled
with zeroed entries (C statics are zero-initialised). -/
def initSched (maxCb maxCo : Nat) : Sched :=
  { now := 0
    event_count := 0
    callback_store := List.replicate maxCb default
    callout_map := 0
    callout_store := List.replicate maxCo default }

/-- `TimeNow` (schedule.c lines 95-98): returns the global `now`. -/
def TimeNow (s : Sched) : Nat := s.now

/-- Handler semantics that performs no scheduler mutation (a handler whose
body does not call back into the scheduler API). -/
def semId : Nat → Sched → Sched := fun _ s => s

/-- One step of the K&R bit-count loop of `get_callout_map_size`
(schedule.c lines 233-242): clear the lowest set bit until zero, counting.
The first argument is fuel (the loop does one iteration per set bit). -/
def kr_pop : Nat → Nat → Nat
  | 0, _ => 0
  | fuel + 1, map => if map = 0 then 0 else 1 + kr_pop fuel (map &&& (map - 1))

/-- `get_callout_map_size` (schedule.c lines 233-242): population count of the
occupancy bitmap via the K&R method.  Fuel `map + 1` always exceeds the number
of set bits, so the fuelled loop computes the exact count. -/
def get_callout_map_size (map : Nat) : Nat := kr_pop (map + 1) map

/-- The value of `~_BV(i)` truncated to the width of the `uint16_t`
`callout_map`, as used by `callout_map &= ~_BV(i)`. -/
def clearMask (i : Nat) : Nat := 65535 ^^^ (1 <<< i)

/-- The ascending first-free-slot scan of `CalloutRegister`
(schedule.c lines 199-211): first index `i` (starting at the second argument,
with fuel the number of remaining indices) whose occupancy bit is clear. -/
def findFreeAux (map : Nat) : Nat → Nat → Option Nat
  | 0, _ => none
  | fuel + 1, i =>
    if map &&& (1 <<< i) = 0 then some i else findFreeAux map fuel (i + 1)

/-- First free slot index below `maxCo` in the occupancy map, scanning upward
from 0. -/
def findFreeSlot (map maxCo : Nat) : Option Nat := findFreeAux map maxCo 0

/-- `CallbackRegister` (schedule.c lines 124-137).  The capacity guard is the
source's `event_count < sizeof(callback_store)/sizeof(CallbackFn)` — see
`callbackStoreBound`.  The new entry is written at index `event_count`
(out of bounds of the `MAX_CALLBACK_CNT`-element array when `event_count`
reaches it; `List.set` drops such writes), initialised disabled, with stored
period `run_time - 1` (uint32 wrap for `run_time = 0`) and first fire time
`now + run_time * _MILLISECOND`.  Returns SUCCESS/FAILURE as a `Bool`. -/
def CallbackRegister (maxCb func run_time : Nat) (s : Sched) : Bool × Sched :=
  if s.event_count < callbackStoreBound maxCb then
    let e : CallbackEvent :=
      { enabled := false
        func := func
        run_time := (run_time + (u32Mod - 1)) % u32Mod
        next_run_time := (s.now + run_time * _MILLISECOND) % u32Mod }
    (true,
      { s with
        callback_store := s.callback_store.set s.event_count e
        event_count := (s.event_count + 1) % 256 })
  else (false, s)

/-- `CallbackMode` (schedule.c lines 167-183): linear scan for the first entry
whose `func` equals the argument (indices below `event_count`); set its
`enabled` flag to `mode`, and when enabling also reset `next_run_time` to
`now + run_time * _MILLISECOND` (with the stored, already-decremented
`run_time`); then break.  No-op when no entry matches. -/
def CallbackMode (func : Nat) (mode : Bool) (s : Sched) : Sched :=
  match (List.range s.event_count).find?
      (fun i => (s.callback_store.getD i default).func = func) with
  | none => s
  | some i =>
    let e := s.callback_store.getD i default
    let e' :=
      if mode then
        { e with enabled := mode
                 next_run_time := (s.now + e.run_time * _MILLISECOND) % u32Mod }
      else { e with enabled := mode }
    { s with callback_store := s.callback_store.set i e' }

/-- Loop body of `CallbackService` (schedule.c lines 140-164).  Arguments:
fuel (≥ the number of remaining loop iterations; the `uint8_t` loop index
bounds the iteration count by 255, so fuel 256 at entry is exact), current
loop index `i`, the `uint8_t` `callbacks_remaining` counter, and the state.
When entry `i` is enabled with `next_run_time` equal to `current`, the entry
is rescheduled (`next_run_time := current + run_time * _MILLISECOND`) BEFORE
its handler runs, then the handler runs, then the remaining counter is
decremented (uint8 wrap) and the loop exits early at zero.  The loop guard
`i < event_count` re-reads `event_count`, which a handler may have changed.
Returns the final state and the trace of (entry index, handler) fired. -/
def CallbackServiceAux (sem : Nat → Sched → Sched) (current : Nat) :
    Nat → Nat → Nat → Sched → Sched × List (Nat × Nat)
  | 0, _, _, s => (s, [])
  | fuel + 1, i, r, s =>
    if i < s.event_count then
      let e := s.callback_store.getD i default
      if e.enabled = true ∧ current = e.next_run_time then
        let e' : CallbackEvent :=
          { e with next_run_time := (current + e.run_time * _MILLISECOND) % u32Mod }
        let s1 := { s with callback_store := s.callback_store.set i e' }
        let s2 := sem e.func s1
        let r1 := (r + 255) % 256
        if r1 = 0 then (s2, [(i, e.func)])
        else
          let rest := CallbackServiceAux sem current fuel (i + 1) r1 s2
          (rest.1, (i, e.func) :: rest.2)
      else CallbackServiceAux sem current fuel (i + 1) r s
    else (s, [])

/-- `CallbackService` (schedule.c lines 140-164): early return when
`event_count` is zero, else run the loop with `callbacks_remaining`
initialised to `event_count`. -/
def CallbackService (sem : Nat → Sched → Sched) (current : Nat) (s : Sched) :
    Sched × List (Nat × Nat) :=
  if s.event_count = 0 then (s, [])
  else CallbackServiceAux sem current 256 0 s.event_count s

/-- `CalloutRegister` (schedule.c lines 193-214): fail when the population
count of the occupancy map equals `MAX_CALLOUT_CNT`; otherwise claim the first
free slot below `MAX_CALLOUT_CNT` (bit set, then `func` and
`run_time := now + run_time * _MILLISECOND` stored), returning SUCCESS.
Falls through to FAILURE when no slot below `MAX_CALLOUT_CNT` is free. -/
def CalloutRegister (maxCo func run_time : Nat) (s : Sched) : Bool × Sched :=
  if get_callout_map_size s.callout_map ≠ maxCo then
    match findFreeSlot s.callout_map maxCo with
    | some i =>
      let e : CalloutEvent :=
        { func := func
          run_time := (s.now + run_time * _MILLISECOND) % u32Mod }
      (true,
        { s with
          callout_map := s.callout_map ||| (1 <<< i)
          callout_store := s.callout_store.set i e })
    | none => (false, s)
  else (false, s)

/-- `CalloutCancel` (schedule.c lines 217-230): linear scan over ALL slot
indices below `MAX_CALLOUT_CNT` — the occupancy bit is NOT consulted — for the
first slot whose stored `func` equals the argument; clear that slot's
occupancy bit and break.  No-op when no slot stores the handler. -/
def CalloutCancel (maxCo func : Nat) (s : Sched) : Sched :=
  match (List.range maxCo).find?
      (fun i => (s.callout_store.getD i default).func = func) with
  | none => s
  | some i => { s with callout_map := s.callout_map &&& clearMask i }

/-- Loop body of `CalloutService` (schedule.c lines 255-270).  Arguments: fuel
(number of remaining slot indices, `MAX_CALLOUT_CNT` at entry), loop index
`i`, the `uint8_t` `callouts_remaining` counter, state.  A slot fires when its
occupancy bit is set AND its `run_time` equals `current`; the handler runs
FIRST and only then is the occupancy bit cleared (so a registration made by
the handler sees slot `i` still occupied); the remaining counter is then
decremented (uint8 wrap) with early exit at zero.  The occupancy map and the
store are re-read every iteration, so handler mutations are visible to the
rest of the pass. -/
def CalloutServiceAux (sem : Nat → Sched → Sched) (current : Nat) :
    Nat → Nat → Nat → Sched → Sched × List (Nat × Nat)
  | 0, _, _, s => (s, [])
  | fuel + 1, i, r, s =>
    if s.callout_map &&& (1 <<< i) ≠ 0 ∧
        current = (s.callout_store.getD i default).run_time then
      let f := (s.callout_store.getD i default).func
      let s1 := sem f s
      let s2 := { s1 with callout_map := s1.callout_map &&& clearMask i }
      let r1 := (r + 255) % 256
      if r1 = 0 then (s2, [(i, f)])
      else
        let rest := CalloutServiceAux sem current fuel (i + 1) r1 s2
        (rest.1, (i, f) :: rest.2)
    else CalloutServiceAux sem current fuel (i + 1) r s

/-- `CalloutService` (schedule.c lines 245-273): early return when the
occupancy map population count is zero, else run the loop over all
`MAX_CALLOUT_CNT` slots with `callouts_remaining` initialised to that count. -/
def CalloutService (sem : Nat → Sched → Sched) (maxCo current : Nat) (s : Sched) :
    Sched × List (Nat × Nat) :=
  if get_callout_map_size s.callout_map = 0 then (s, [])
  else CalloutServiceAux sem current maxCo 0 (get_callout_map_size s.callout_map) s

/-- `ScheduleTimerOverflow` (schedule.c lines 108-114), the tick-advance entry
point: increment `now` (uint32 wrap), then `CallbackService(now)`, then
`CalloutService(now)`.  The trace tags each fired handler with the tick at
which it fired. -/
def ScheduleTimerOverflow (sem : Nat → Sched → Sched) (maxCo : Nat) (s : Sched) :
    Sched × List (Nat × Nat) :=
  let s1 : Sched := { s with now := (s.now + 1) % u32Mod }
  let cb := CallbackService sem s1.now s1
  let co := CalloutService sem maxCo s1.now cb.1
  (co.1, (cb.2 ++ co.2).map (fun p => (s1.now, p.2)))

/-- `n` consecutive tick-advance invocations, concatenating the traces in
order. -/
def dispatchN (sem : Nat → Sched → Sched) (maxCo : Nat) :
    Nat → Sched → Sched × List (Nat × Nat)
  | 0, s => (s, [])
  | n + 1, s =>
    let d := ScheduleTimerOverflow sem maxCo s
    let rest := dispatchN sem maxCo n d.1
    (rest.1, d.2 ++ rest.2)

/-- Modelled from the spec (§4.2, §8.4): the unconditional full scan that the
early-exit callback service loop is claimed to be equivalent to — identical to
`CallbackServiceAux` but with no `callbacks_remaining` counter and no early
exit. -/
def CallbackServiceFullAux (sem : Nat → Sched → Sched) (current : Nat) :
    Nat → Nat → Sched → Sched × List (Nat × Nat)
  | 0, _, s => (s, [])
  | fuel + 1, i, s =>
    if i < s.event_count then
      let e := s.callback_store.getD i default
      if e.enabled = true ∧ current = e.next_run_time then
        let e' : CallbackEvent :=
          { e with next_run_time := (current + e.run_time * _MILLISECOND) % u32Mod }
        let s1 := { s with callback_store := s.callback_store.set i e' }
        let s2 := sem e.func s1
        let rest := CallbackServiceFullAux sem current fuel (i + 1) s2
        (rest.1, (i, e.func) :: rest.2)
      else CallbackServiceFullAux sem current fuel (i + 1) s
    else (s, [])

/-- Modelled from the spec: full-scan callback service (no early exit). -/
def CallbackServiceFull (sem : Nat → Sched → Sched) (current : Nat) (s : Sched) :
    Sched × List (Nat × Nat) :=
  CallbackServiceFullAux sem current 256 0 s

/-- Modelled from the spec (§4.3, §8.4): the unconditional full scan that the
early-exit callout service loop is claimed to be equivalent to — identical to
`CalloutServiceAux` but with no `callouts_remaining` counter and no early
exit. -/
def CalloutServiceFullAux (sem : Nat → Sched → Sched) (current : Nat) :
    Nat → Nat → Sched → Sched × List (Nat × Nat)
  | 0, _, s => (s, [])
  | fuel + 1, i, s =>
    if s.callout_map &&& (1 <<< i) ≠ 0 ∧
        current = (s.callout_store.getD i default).run_time then
      let f := (s.callout_store.getD i default).func
      let s1 := sem f s
      let s2 := { s1 with callout_map := s1.callout_map &&& clearMask i }
      let rest := CalloutServiceFullAux sem current fuel (i + 1) s2
      (rest.1, (i, f) :: rest.2)
    else CalloutServiceFullAux sem current fuel (i + 1) s

/-- Modelled from the spec: full-scan callout service (no early exit). -/
def CalloutServiceFull (sem : Nat → Sched → Sched) (maxCo current : Nat) (s : Sched) :
    Sched × List (Nat × Nat) :=
  CalloutServiceFullAux sem current maxCo 0 s

/-! ### Concrete scenario states used by the analyses below -/

/-- A one-entry callback table built through the API: `CallbackRegister(7, 2)`
from the zero state, then `CallbackMode(7, ENABLED)` at tick 0.  Requested
period 2; the stored `run_time` field is 1 and `next_run_time` is 1. -/
def cbScenario : Sched := CallbackMode 7 true (CallbackRegister 1 7 2 (initSched 1 0)).2

/-- Callout table (capacity 2) built through the API: handler 7 registered
with delay 1 and again with delay 5 at tick 0, then one tick serviced, so
slot 0 fired (its stored `func` 7 is now stale) while slot 1 is still pending
with handler 7. -/
def staleSlotScenario : Sched :=
  (dispatchN semId 2 1 (CalloutRegister 2 7 5 (CalloutRegister 2 7 1 (initSched 0 2)).2).2).1

/-- Handler semantics for the early-exit analysis: handler 7 registers
handler 8 with delay 0 (due immediately) when invoked; other handlers do
nothing. -/
def semRegDue : Nat → Sched → Sched :=
  fun f s => if f = 7 then (CalloutRegister 2 8 0 s).2 else s

/-- Callout table (capacity 2) at tick 5 with slot 0 occupied by handler 7 due
at tick 5 and slot 1 free. -/
def oneDueState : Sched :=
  { now := 5
    event_count := 0
    callback_store := []
    callout_map := 1
    callout_store := [{ func := 7, run_time := 5 }, { func := 0, run_time := 0 }] }

/-- Handler semantics for the slot-reuse analysis: handler 9 registers
handler 8 with delay 0 when invoked; other handlers do nothing. -/
def semReclaim : Nat → Sched → Sched :=
  fun f s => if f = 9 then (CalloutRegister 2 8 0 s).2 else s

/-- Callout table (capacity 2) at tick 5 with both slots occupied and due at
tick 5 (handler 7 in slot 0, handler 9 in slot 1). -/
def bothDueState : Sched :=
  { now := 5
    event_count := 0
    callback_store := []
    callout_map := 3
    callout_store := [{ func := 7, run_time := 5 }, { func := 9, run_time := 5 }] }

/-- Callback 7 (period 2, enabled at tick 0) and callout 9 (delay 1) both due
at tick 1, built through the API at capacities 1/1. -/
def bothTablesDueState : Sched :=
  (CalloutRegister 1 9 1 (CallbackMode 7 true (CallbackRegister 1 7 2 (initSched 1 1)).2)).2

/-- Binary-recursion population count (proof-side characterisation of the
source's K&R loop). -/
def pc (m : Nat) : Nat :=
  if h : m = 0 then 0 else m % 2 + pc (m / 2)
decreasing_by exact Nat.div_lt_self (Nat.pos_of_ne_zero h) Nat.one_lt_two

/-- Single-callback-table state: one registered entry (enable flag `en`,
handler `h`, stored period field `p`, next fire time `nxt`), empty callout
table, clock at `t`. -/
def cbSt (en : Bool) (h p nxt t : Nat) : Sched :=
  { now := t
    event_count := 1
    callback_store := [{ enabled := en, func := h, run_time := p, next_run_time := nxt }]
    callout_map := 0
    callout_store := [] }

/-- Single-callout-table state: slot 0 holds handler `h` with fire time `rt`,
the other `maxCo - 1` slots are zeroed, occupancy map `map`, empty callback
table, clock at `t`. -/
def coSt (h rt t maxCo map : Nat) : Sched :=
  { now := t
    event_count := 0
    callback_store := []
    callout_map := map
    callout_store := { func := h, run_time := rt } :: List.replicate (maxCo - 1) default }

/-- The state after the fire action of one callback-service iteration at
index `i`: reschedule entry `i`, then run its handler. -/
def cbFired (sem : Nat → Sched → Sched) (current i : Nat) (s : Sched) : Sched :=
  let e := s.callback_store.getD i default
  let e' : CallbackEvent :=
    { e with next_run_time := (current + e.run_time * _MILLISECOND) % u32Mod }
  sem e.func { s with callback_store := s.callback_store.set i e' }

/-- The state after the fire action of one callout-service iteration at slot
`i`: run the handler, then clear the occupancy bit. -/
def coFired (sem : Nat → Sched → Sched) (i : Nat) (s : Sched) : Sched :=
  { sem (s.callout_store.getD i default).func s with
    callout_map :=
      (sem (s.callout_store.getD i default).func s).callout_map &&& clearMask i }

/-- Callout table (capacity 2) built through the API at tick 0: handler 10
registered with delay 5 (slot 0) and handler 11 with delay 3 (slot 1) — the
spec's concrete scenario. -/
def calloutScenarioAB : Sched :=
  (CalloutRegister 2 11 3 (CalloutRegister 2 10 5 (initSched 0 2)).2).2

/-! ### Counterexamples and failing-input evaluations -/

/-- C1: the claim is false on the code.  Handler 7 is registered with period
P = 2 and enabled at tick T = 0; the claim says it fires exactly at ticks
2, 4, 6, … and never at other ticks, but over the first two ticks the code
fires it at tick 1 (and again at tick 2): the observable period is
P − 1 = 1, not P.  Tick 1 is not of the form T + k·P. -/
theorem C1_counterexample :
    (dispatchN semId 0 2 cbScenario).2 = [(1, 7), (2, 7)] ∧
      ∀ k : Nat, 0 + 2 * (k + 1) ≠ 1 := by
  refine ⟨by decide, ?_⟩
  intro k
  omega

/-- C2: failing-input evaluation.  With `MAX_CALLBACK_CNT = 1` the claim says
the second `CallbackRegister` must return FAILURE, but the capacity guard
compares `event_count` with `sizeof(callback_store)/sizeof(CallbackFn)` = 6,
not with the element count 1, so the second registration returns SUCCESS and
`event_count` grows to 2 — the write to `callback_store[1]` is out of bounds
of the one-element array. -/
theorem C2_failing_eval :
    (CallbackRegister 1 7 5 (initSched 1 0)).1 = true ∧
      (CallbackRegister 1 8 5 (CallbackRegister 1 7 5 (initSched 1 0)).2).1 = true ∧
      (CallbackRegister 1 8 5 (CallbackRegister 1 7 5 (initSched 1 0)).2).2.event_count = 2 ∧
      callbackStoreBound 1 = 6 := by
  decide

/-- C4: the claim is false on the code.  In `staleSlotScenario` slot 0 is
vacant but still stores handler 7 (stale after firing), and slot 1 is occupied
by handler 7.  The claim says `CalloutCancel(7)` clears the occupancy bit of
the first OCCUPIED matching slot (slot 1), leaving the map 0; the code matches
the vacant slot 0 by stored `func` alone, breaks, and leaves slot 1
scheduled (map still 2). -/
theorem C4_counterexample :
    staleSlotScenario.callout_map = 2 ∧
      (staleSlotScenario.callout_store.getD 0 default).func = 7 ∧
      (staleSlotScenario.callout_store.getD 1 default).func = 7 ∧
      (CalloutCancel 2 7 staleSlotScenario).callout_map = 2 ∧
      (2 : Nat) &&& (1 <<< 1) ≠ 0 := by
  decide

/-- C5: the claim is false on the code.  In `oneDueState` under `semRegDue`,
slot 0 fires and its handler registers a new callout in slot 1 due at the
current tick; the early-exit counter (initialised to the pass-start occupancy
count 1) then reaches zero and the loop stops, so slot 1 is never scanned —
the unconditional full scan fires it.  The two loops differ observably. -/
theorem C5_counterexample :
    (CalloutService semRegDue 2 5 oneDueState).2 = [(0, 7)] ∧
      (CalloutServiceFull semRegDue 2 5 oneDueState).2 = [(0, 7), (1, 8)] ∧
      (CalloutService semRegDue 2 5 oneDueState).2 ≠
        (CalloutServiceFull semRegDue 2 5 oneDueState).2 := by
  decide

/-- C6: the "except" clause of the claim is false on the code.  In
`bothDueState` under `semReclaim`, slot 0 (handler 7) fires and is freed; then
slot 1 (handler 9) fires and its handler re-claims slot 0 with
`run_time = 5 = current_tick`.  The claim's exception says that slot must fire
again in the same pass; the code never revisits index 0, so handler 8 does not
fire: the final state still holds slot 0 occupied and due. -/
theorem C6_counterexample :
    (CalloutService semReclaim 2 5 bothDueState).2 = [(0, 7), (1, 9)] ∧
      (CalloutService semReclaim 2 5 bothDueState).1.callout_map &&& (1 <<< 0) ≠ 0 ∧
      ((CalloutService semReclaim 2 5 bothDueState).1.callout_store.getD 0 default)
        = { func := 8, run_time := 5 } ∧
      ∀ q ∈ (CalloutService semReclaim 2 5 bothDueState).2, q.2 ≠ 8 := by
  decide

/-- C7: the claim is false on the code.  Handler 7 registered with period
P = 2, then enabled at tick 0: the claim says `next_fire_tick` becomes
`now() + P = 2`, but `CallbackMode` uses the stored (already decremented)
`run_time` field, giving 0 + (2 − 1) = 1. -/
theorem C7_counterexample :
    (cbScenario.callback_store.getD 0 default).next_run_time = 1 ∧ (1 : Nat) ≠ 0 + 2 := by
  decide

/-! ### Population-count and bit lemmas

`get_callout_map_size` is the K&R loop from the source; `pc` is the standard
binary-recursion population count used as its proof-side characterisation. -/

theorem pc_zero : pc 0 = 0 := by
  rw [pc]
  simp

theorem pc_of_ne_zero (m : Nat) (h : m ≠ 0) : pc m = m % 2 + pc (m / 2) := by
  rw [pc]
  simp [h]

theorem pc_two_mul_add (t b : Nat) (hb : b < 2) : pc (2 * t + b) = b + pc t := by
  by_cases h : 2 * t + b = 0
  · have ht : t = 0 := by omega
    have hb0 : b = 0 := by omega
    simp [h, ht, hb0, pc_zero]
  · rw [pc_of_ne_zero _ h]
    have h1 : (2 * t + b) % 2 = b := by omega
    have h2 : (2 * t + b) / 2 = t := by omega
    rw [h1, h2]

theorem two_mul_add_land (x y a b : Nat) (ha : a < 2) (hb : b < 2) :
    (2 * x + a) &&& (2 * y + b) = 2 * (x &&& y) + (a &&& b) := by
  have hc : a &&& b < 2 := Nat.lt_of_le_of_lt Nat.and_le_right hb
  have h2 : ((2 * x + a) &&& (2 * y + b)) / 2 = x &&& y := by
    rw [Nat.and_div_two]
    have e1 : (2 * x + a) / 2 = x := by omega
    have e2 : (2 * y + b) / 2 = y := by omega
    rw [e1, e2]
  have h1 : ((2 * x + a) &&& (2 * y + b)) % 2 = a &&& b := by
    have hiff := @Nat.and_mod_two_eq_one (2 * x + a) (2 * y + b)
    have hm : ((2 * x + a) &&& (2 * y + b)) % 2 < 2 := Nat.mod_lt _ (by omega)
    have v00 : (0 : Nat) &&& 0 = 0 := rfl
    have v01 : (0 : Nat) &&& 1 = 0 := rfl
    have v10 : (1 : Nat) &&& 0 = 0 := rfl
    have v11 : (1 : Nat) &&& 1 = 1 := rfl
    interval_cases a <;> interval_cases b <;> omega
  have h3 := Nat.div_add_mod ((2 * x + a) &&& (2 * y + b)) 2
  omega

theorem pc_and_pred : ∀ m : Nat, m ≠ 0 → pc m = 1 + pc (m &&& (m - 1)) := by
  intro m
  induction m using Nat.strong_induction_on with
  | _ m ih =>
    intro hm
    rcases Nat.mod_two_eq_zero_or_one m with he | ho
    · have ht0 : m / 2 ≠ 0 := by omega
      have e1 : m = 2 * (m / 2) + 0 := by omega
      have e2 : m - 1 = 2 * (m / 2 - 1) + 1 := by omega
      have eland : m &&& (m - 1) = 2 * (m / 2 &&& (m / 2 - 1)) + (0 &&& 1) := by
        have h := two_mul_add_land (m / 2) (m / 2 - 1) 0 1 (by omega) (by omega)
        rw [← e1, ← e2] at h
        exact h
      have epc : pc m = pc (m / 2) := by
        conv_lhs => rw [e1]
        rw [pc_two_mul_add (m / 2) 0 (by omega)]
        omega
      have erec := ih (m / 2) (by omega) ht0
      have efold : pc (2 * (m / 2 &&& (m / 2 - 1)) + (0 &&& 1)) =
          pc (m / 2 &&& (m / 2 - 1)) := by
        rw [Nat.zero_and]
        rw [pc_two_mul_add _ 0 (by omega)]
        omega
      rw [eland, efold, epc, erec]
    · have e1 : m = 2 * (m / 2) + 1 := by omega
      have e2 : m - 1 = 2 * (m / 2) + 0 := by omega
      have eland : m &&& (m - 1) = 2 * (m / 2 &&& m / 2) + (1 &&& 0) := by
        have h := two_mul_add_land (m / 2) (m / 2) 1 0 (by omega) (by omega)
        rw [← e1, ← e2] at h
        exact h
      have epc : pc m = 1 + pc (m / 2) := by
        conv_lhs => rw [e1]
        rw [pc_two_mul_add (m / 2) 1 (by omega)]
      have efold : pc (2 * (m / 2 &&& m / 2) + (1 &&& 0)) = pc (m / 2) := by
        rw [Nat.and_self, Nat.and_zero]
        rw [pc_two_mul_add _ 0 (by omega)]
        omega
      rw [eland, efold, epc]

theorem kr_pop_eq_pc (fuel : Nat) : ∀ m, m < fuel → kr_pop fuel m = pc m := by
  induction fuel with
  | zero => intro m h; omega
  | succ fuel ih =>
    intro m h
    by_cases hm : m = 0
    · simp [kr_pop, hm, pc_zero]
    · have hle : m &&& (m - 1) ≤ m - 1 := Nat.and_le_right
      have hlt : m &&& (m - 1) < fuel := by omega
      simp only [kr_pop, hm, if_false]
      rw [ih _ hlt, ← pc_and_pred m hm]

theorem get_callout_map_size_eq_pc (m : Nat) : get_callout_map_size m = pc m :=
  kr_pop_eq_pc (m + 1) m (Nat.lt_succ_self m)

theorem pc_pos : ∀ m : Nat, m ≠ 0 → 0 < pc m := by
  intro m
  induction m using Nat.strong_induction_on with
  | _ m ih =>
    intro hm
    rw [pc_of_ne_zero m hm]
    rcases Nat.mod_two_eq_zero_or_one m with he | ho
    · have ht0 : m / 2 ≠ 0 := by omega
      have := ih (m / 2) (by omega) ht0
      omega
    · omega

theorem pc_eq_zero_iff (m : Nat) : pc m = 0 ↔ m = 0 := by
  constructor
  · intro h
    by_contra hm
    have := pc_pos m hm
    omega
  · intro h
    rw [h, pc_zero]

theorem pc_le_of_lt_two_pow : ∀ k m : Nat, m < 2 ^ k → pc m ≤ k := by
  intro k
  induction k with
  | zero =>
    intro m h
    have : m = 0 := by simpa using h
    simp [this, pc_zero]
  | succ k ih =>
    intro m h
    by_cases hm : m = 0
    · simp [hm, pc_zero]
    · rw [pc_of_ne_zero m hm]
      have hp : (2 : Nat) ^ (k + 1) = 2 * 2 ^ k := by ring
      have h2 : m / 2 < 2 ^ k := by omega
      have := ih (m / 2) h2
      omega

theorem land_one_shiftLeft (m i : Nat) :
    m &&& (1 <<< i) = if m.testBit i = true then 2 ^ i else 0 := by
  rw [Nat.shiftLeft_eq, one_mul]
  by_cases h : m.testBit i = true
  · simp only [h, if_true]
    apply Nat.eq_of_testBit_eq
    intro j
    rw [Nat.testBit_and]
    by_cases hij : i = j
    · subst hij
      simp [h]
    · simp [Nat.testBit_two_pow_of_ne hij]
  · simp only [Bool.not_eq_true] at h
    rw [if_neg (by simp [h])]
    apply Nat.eq_of_testBit_eq
    intro j
    rw [Nat.testBit_and, Nat.zero_testBit]
    by_cases hij : i = j
    · subst hij
      simp [h]
    · simp [Nat.testBit_two_pow_of_ne hij]

theorem land_shiftLeft_ne_zero_iff (m i : Nat) :
    m &&& (1 <<< i) ≠ 0 ↔ m.testBit i = true := by
  constructor
  · intro hne
    by_contra hb
    simp only [Bool.not_eq_true] at hb
    rw [land_one_shiftLeft, hb] at hne
    simp at hne
  · intro ht
    rw [land_one_shiftLeft, ht]
    simp

theorem testBit_iff_div (m i : Nat) : m.testBit i = true ↔ m / 2 ^ i % 2 = 1 := by
  rw [Nat.testBit_to_div_mod]
  simp

theorem shiftRight_eq_zero_iff (m i : Nat) : m >>> i = 0 ↔ m < 2 ^ i := by
  rw [Nat.shiftRight_eq_div_pow]
  constructor
  · intro h
    by_contra hb
    push_neg at hb
    have := Nat.div_le_div_right (c := 2 ^ i) hb
    rw [Nat.div_self (Nat.two_pow_pos i)] at this
    omega
  · intro h
    exact Nat.div_eq_of_lt h

theorem pc_shiftRight_succ_le (m i : Nat) : pc (m >>> (i + 1)) ≤ pc (m >>> i) := by
  by_cases h : m >>> i = 0
  · have h2 : m >>> (i + 1) = 0 := by
      rw [shiftRight_eq_zero_iff] at h ⊢
      have : (2 : Nat) ^ i ≤ 2 ^ (i + 1) := Nat.pow_le_pow_right (by omega) (by omega)
      omega
    rw [h, h2]
  · rw [Nat.shiftRight_succ]
    have := pc_of_ne_zero (m >>> i) h
    omega

theorem pc_shiftRight_of_testBit (m i : Nat) (h : m.testBit i = true) :
    pc (m >>> i) = 1 + pc (m >>> (i + 1)) := by
  have h1 : (m >>> i) % 2 = 1 := by
    rw [Nat.shiftRight_eq_div_pow]
    exact (testBit_iff_div m i).mp h
  have h0 : m >>> i ≠ 0 := by omega
  rw [Nat.shiftRight_succ, pc_of_ne_zero _ h0, h1]

theorem clearMask_lt (i : Nat) (hi : i < 16) : clearMask i < 2 ^ 16 := by
  unfold clearMask
  apply Nat.xor_lt_two_pow (by norm_num)
  rw [Nat.shiftLeft_eq, one_mul]
  exact Nat.pow_lt_pow_right (by norm_num) hi

theorem land_clearMask_lt (m i : Nat) (hi : i < 16) : m &&& clearMask i < 2 ^ 16 :=
  Nat.lt_of_le_of_lt Nat.and_le_right (clearMask_lt i hi)

theorem testBit_clearMask (i j : Nat) (hi : i < 16) :
    (clearMask i).testBit j = (decide (j < 16) && !(decide (i = j))) := by
  unfold clearMask
  rw [Nat.testBit_xor, Nat.shiftLeft_eq, one_mul]
  rw [show (65535 : Nat) = 2 ^ 16 - 1 from by norm_num]
  rw [Nat.testBit_two_pow_sub_one, Nat.testBit_two_pow]
  rcases Nat.lt_or_ge j 16 with h1 | h1
  · by_cases h2 : i = j
    · simp [h1, h2]
    · simp [h1, h2]
  · have h2 : ¬ (i = j) := by omega
    have h3 : ¬ (j < 16) := by omega
    simp [h2, h3]

theorem clearMask_land_shiftRight (m i : Nat) (hm : m < 2 ^ 16) (hi : i < 16) :
    (m &&& clearMask i) >>> (i + 1) = m >>> (i + 1) := by
  apply Nat.eq_of_testBit_eq
  intro j
  rw [Nat.testBit_shiftRight, Nat.testBit_shiftRight, Nat.testBit_and,
      testBit_clearMask i (i + 1 + j) hi]
  by_cases h : i + 1 + j < 16
  · have hne : ¬ (i = i + 1 + j) := by omega
    simp [h, hne]
  · have hb : m.testBit (i + 1 + j) = false := by
      apply Nat.testBit_lt_two_pow
      calc m < 2 ^ 16 := hm
        _ ≤ 2 ^ (i + 1 + j) := Nat.pow_le_pow_right (by omega) (by omega)
    simp [hb]

/-! ### First-match lemmas for the linear scans of `CallbackMode` and
`CalloutCancel` -/

theorem range_find?_none (p : Nat → Bool) (n : Nat) (h : ∀ k, k < n → p k = false) :
    (List.range n).find? p = none := by
  induction n with
  | zero => rfl
  | succ n ih =>
    rw [List.range_succ, List.find?_append, ih (fun k hk => h k (by omega))]
    simp [List.find?, h n (by omega)]

theorem range_find?_some (p : Nat → Bool) (n j : Nat) (hj : j < n) (hpj : p j = true)
    (hfirst : ∀ k, k < j → p k = false) : (List.range n).find? p = some j := by
  induction n with
  | zero => omega
  | succ n ih =>
    rw [List.range_succ, List.find?_append]
    by_cases h : j < n
    · rw [ih h]
      rfl
    · have hjn : j = n := by omega
      subst hjn
      rw [range_find?_none p j hfirst]
      simp [List.find?, hpj]

/-! ### Early-exit versus full-scan equivalence (claim C5) -/

theorem cbFullAux_stop (sem : Nat → Sched → Sched) (current : Nat) :
    ∀ fuel i s, s.event_count ≤ i →
      CallbackServiceFullAux sem current fuel i s = (s, []) := by
  intro fuel
  induction fuel with
  | zero => intro i s h; rfl
  | succ fuel ih =>
    intro i s h
    have hlt : ¬ (i < s.event_count) := by omega
    simp only [CallbackServiceFullAux, hlt, if_false]

theorem coFullAux_stop (sem : Nat → Sched → Sched) (current : Nat) :
    ∀ fuel i s, s.callout_map < 2 ^ i →
      CalloutServiceFullAux sem current fuel i s = (s, []) := by
  intro fuel
  induction fuel with
  | zero => intro i s h; rfl
  | succ fuel ih =>
    intro i s h
    have hbit : s.callout_map &&& (1 <<< i) = 0 := by
      rw [land_one_shiftLeft, if_neg]
      simp [Nat.testBit_lt_two_pow h]
    have hcond : ¬ (s.callout_map &&& (1 <<< i) ≠ 0 ∧
        current = (s.callout_store.getD i default).run_time) := by
      intro hc
      exact hc.1 hbit
    simp only [CalloutServiceFullAux, hcond, if_false]
    apply ih
    have : (2 : Nat) ^ i ≤ 2 ^ (i + 1) := Nat.pow_le_pow_right (by omega) (by omega)
    omega

theorem cbAux_eq_full (sem : Nat → Sched → Sched) (current : Nat)
    (hsem : ∀ f s', sem f s' = s') :
    ∀ fuel i r s, 1 ≤ r → r ≤ 255 → s.event_count ≤ i + r →
      CallbackServiceAux sem current fuel i r s =
        CallbackServiceFullAux sem current fuel i s := by
  intro fuel
  induction fuel with
  | zero => intro i r s h1 h2 h3; rfl
  | succ fuel ih =>
    intro i r s h1 h2 h3
    by_cases hlt : i < s.event_count
    · by_cases hdue : (s.callback_store.getD i default).enabled = true ∧
          current = (s.callback_store.getD i default).next_run_time
      · simp only [CallbackServiceAux, CallbackServiceFullAux]
        rw [if_pos hlt, if_pos hlt, if_pos hdue, if_pos hdue]
        set e := s.callback_store.getD i default with he
        set s1 : Sched := { s with callback_store := s.callback_store.set i ({ e with next_run_time := (current + e.run_time * _MILLISECOND) % u32Mod }) } with hs1
        have hec1 : s1.event_count = s.event_count := by rw [hs1]
        rw [hsem]
        by_cases hexit : (r + 255) % 256 = 0
        · rw [if_pos hexit]
          have hstop := cbFullAux_stop sem current fuel (i + 1) s1 (by omega)
          rw [hstop]
        · rw [if_neg hexit]
          have hr2 : 2 ≤ r := by omega
          have hrw : (r + 255) % 256 = r - 1 := by omega
          rw [hrw]
          have hrec := ih (i + 1) (r - 1) s1 (by omega) (by omega) (by omega)
          rw [hrec]
      · simp only [CallbackServiceAux, CallbackServiceFullAux]
        rw [if_pos hlt, if_pos hlt, if_neg hdue, if_neg hdue]
        exact ih (i + 1) r s h1 h2 (by omega)
    · simp only [CallbackServiceAux, CallbackServiceFullAux]
      rw [if_neg hlt, if_neg hlt]

theorem coAux_eq_full (sem : Nat → Sched → Sched) (current : Nat)
    (hsem : ∀ f s', sem f s' = s') :
    ∀ fuel i r s, i + fuel ≤ 16 → s.callout_map < 2 ^ 16 →
      pc (s.callout_map >>> i) ≤ r → 1 ≤ r → r ≤ 255 →
      CalloutServiceAux sem current fuel i r s =
        CalloutServiceFullAux sem current fuel i s := by
  intro fuel
  induction fuel with
  | zero => intro i r s h16 hm hpc h1 h2; rfl
  | succ fuel ih =>
    intro i r s h16 hm hpc h1 h2
    have hi : i < 16 := by omega
    by_cases hcond : s.callout_map &&& (1 <<< i) ≠ 0 ∧
        current = (s.callout_store.getD i default).run_time
    · simp only [CalloutServiceAux, CalloutServiceFullAux]
      rw [if_pos hcond, if_pos hcond]
      rw [hsem]
      set s2 : Sched := { s with callout_map := s.callout_map &&& clearMask i } with hs2
      have hmap2 : s2.callout_map = s.callout_map &&& clearMask i := by rw [hs2]
      have htb : s.callout_map.testBit i = true :=
        (land_shiftLeft_ne_zero_iff s.callout_map i).mp hcond.1
      have hpcstep : pc (s.callout_map >>> i) = 1 + pc (s.callout_map >>> (i + 1)) :=
        pc_shiftRight_of_testBit s.callout_map i htb
      have hsr2 : s2.callout_map >>> (i + 1) = s.callout_map >>> (i + 1) := by
        rw [hmap2]
        exact clearMask_land_shiftRight s.callout_map i hm hi
      by_cases hexit : (r + 255) % 256 = 0
      · rw [if_pos hexit]
        have hr1 : r = 1 := by omega
        have hz : pc (s.callout_map >>> (i + 1)) = 0 := by omega
        have hz2 : s2.callout_map >>> (i + 1) = 0 := by
          rw [hsr2]
          exact (pc_eq_zero_iff _).mp hz
        have hlt2 : s2.callout_map < 2 ^ (i + 1) := (shiftRight_eq_zero_iff _ _).mp hz2
        rw [coFullAux_stop sem current fuel (i + 1) s2 hlt2]
      · rw [if_neg hexit]
        have hr2 : 2 ≤ r := by omega
        have hrw : (r + 255) % 256 = r - 1 := by omega
        rw [hrw]
        have hpc2 : pc (s2.callout_map >>> (i + 1)) ≤ r - 1 := by
          rw [hsr2]
          omega
        have hm2 : s2.callout_map < 2 ^ 16 := by
          rw [hmap2]
          exact land_clearMask_lt s.callout_map i hi
        have hrec := ih (i + 1) (r - 1) s2 (by omega) hm2 hpc2 (by omega) (by omega)
        rw [hrec]
    · simp only [CalloutServiceAux, CalloutServiceFullAux]
      rw [if_neg hcond, if_neg hcond]
      have hpc2 : pc (s.callout_map >>> (i + 1)) ≤ r := by
        have := pc_shiftRight_succ_le s.callout_map i
        omega
      exact ih (i + 1) r s (by omega) hm hpc2 h1 h2

/-! ### Evaluation lemmas for single-entry tables, and dispatch stepping -/

theorem coAux_noBits (sem : Nat → Sched → Sched) (current : Nat) :
    ∀ fuel i r s, s.callout_map < 2 ^ i →
      CalloutServiceAux sem current fuel i r s = (s, []) := by
  intro fuel
  induction fuel with
  | zero => intro i r s h; rfl
  | succ fuel ih =>
    intro i r s h
    have hbit : s.callout_map &&& (1 <<< i) = 0 := by
      rw [land_one_shiftLeft, if_neg]
      simp [Nat.testBit_lt_two_pow h]
    have hcond : ¬ (s.callout_map &&& (1 <<< i) ≠ 0 ∧
        current = (s.callout_store.getD i default).run_time) := by
      intro hc
      exact hc.1 hbit
    simp only [CalloutServiceAux]
    rw [if_neg hcond]
    apply ih
    have : (2 : Nat) ^ i ≤ 2 ^ (i + 1) := Nat.pow_le_pow_right (by omega) (by omega)
    omega

theorem CalloutService_empty (sem : Nat → Sched → Sched) (maxCo current : Nat)
    (s : Sched) (h : s.callout_map = 0) :
    CalloutService sem maxCo current s = (s, []) := by
  unfold CalloutService
  rw [if_pos]
  rw [h]
  rfl

theorem cbAux_step (sem : Nat → Sched → Sched) (current fuel i r : Nat) (s : Sched) :
    CallbackServiceAux sem current (fuel + 1) i r s =
      if i < s.event_count then
        if (s.callback_store.getD i default).enabled = true ∧
            current = (s.callback_store.getD i default).next_run_time then
          if (r + 255) % 256 = 0 then
            (cbFired sem current i s, [(i, (s.callback_store.getD i default).func)])
          else
            ((CallbackServiceAux sem current fuel (i + 1) ((r + 255) % 256)
                (cbFired sem current i s)).1,
              (i, (s.callback_store.getD i default).func) ::
                (CallbackServiceAux sem current fuel (i + 1) ((r + 255) % 256)
                  (cbFired sem current i s)).2)
        else CallbackServiceAux sem current fuel (i + 1) r s
      else (s, []) := rfl

theorem coAux_step (sem : Nat → Sched → Sched) (current fuel i r : Nat) (s : Sched) :
    CalloutServiceAux sem current (fuel + 1) i r s =
      if s.callout_map &&& (1 <<< i) ≠ 0 ∧
          current = (s.callout_store.getD i default).run_time then
        if (r + 255) % 256 = 0 then
          (coFired sem i s, [(i, (s.callout_store.getD i default).func)])
        else
          ((CalloutServiceAux sem current fuel (i + 1) ((r + 255) % 256)
              (coFired sem i s)).1,
            (i, (s.callout_store.getD i default).func) ::
              (CalloutServiceAux sem current fuel (i + 1) ((r + 255) % 256)
                (coFired sem i s)).2)
      else CalloutServiceAux sem current fuel (i + 1) r s := rfl

theorem CallbackService_single (sem : Nat → Sched → Sched) (current : Nat)
    (en : Bool) (h p nxt t : Nat) (hsem : ∀ f s', sem f s' = s') :
    CallbackService sem current (cbSt en h p nxt t) =
      if en = true ∧ current = nxt then
        (cbSt en h p ((current + p) % u32Mod) t, [(0, h)])
      else (cbSt en h p nxt t, []) := by
  unfold CallbackService
  rw [if_neg (by simp [cbSt])]
  rw [show (256 : Nat) = 255 + 1 from rfl, cbAux_step]
  rw [if_pos (by simp [cbSt])]
  by_cases hc : en = true ∧ current = nxt
  · rw [if_pos (by simpa [cbSt] using hc), if_pos hc]
    rw [if_pos (by simp [cbSt])]
    simp [cbFired, cbSt, hsem, _MILLISECOND]
  · rw [if_neg (by simpa [cbSt] using hc), if_neg hc]
    rw [show (255 : Nat) = 254 + 1 from rfl, cbAux_step]
    rw [if_neg (by simp [cbSt])]

theorem CalloutService_single (sem : Nat → Sched → Sched) (maxCo current h rt t : Nat)
    (hsem : ∀ f s', sem f s' = s') (hmc : 1 ≤ maxCo) :
    CalloutService sem maxCo current (coSt h rt t maxCo 1) =
      if current = rt then (coSt h rt t maxCo 0, [(0, h)])
      else (coSt h rt t maxCo 1, []) := by
  obtain ⟨mc, hmcd⟩ : ∃ mc, maxCo = mc + 1 := ⟨maxCo - 1, by omega⟩
  subst hmcd
  unfold CalloutService
  rw [if_neg (by simp only [coSt]; decide)]
  rw [coAux_step]
  by_cases hc : current = rt
  · rw [if_pos ?due, if_pos hc]
    case due =>
      refine ⟨by simp only [coSt]; decide, ?_⟩
      simpa [coSt] using hc
    rw [if_pos (by simp only [coSt]; decide)]
    simp [coFired, coSt, hsem, show (1 : Nat) &&& clearMask 0 = 0 from by decide]
  · rw [if_neg ?notdue, if_neg hc]
    case notdue =>
      intro hK
      exact hc (by simpa [coSt] using hK.2)
    exact coAux_noBits sem current mc 1 _ _ (by simp only [coSt]; decide)

theorem CallbackService_inert (sem : Nat → Sched → Sched) (current : Nat)
    (s : Sched) (h : s.event_count = 0) :
    CallbackService sem current s = (s, []) := by
  unfold CallbackService
  rw [if_pos h]

theorem ScheduleTimerOverflow_cbSt (sem : Nat → Sched → Sched) (maxCo : Nat)
    (en : Bool) (h p nxt t : Nat) (hsem : ∀ f s', sem f s' = s')
    (hT : t + 1 < u32Mod) :
    ScheduleTimerOverflow sem maxCo (cbSt en h p nxt t) =
      if en = true ∧ t + 1 = nxt then
        (cbSt en h p ((t + 1 + p) % u32Mod) (t + 1), [(t + 1, h)])
      else (cbSt en h p nxt (t + 1), []) := by
  have hs1 : ({ cbSt en h p nxt t with
      now := ((cbSt en h p nxt t).now + 1) % u32Mod } : Sched) =
      cbSt en h p nxt (t + 1) := by
    have hm : (t + 1) % u32Mod = t + 1 := Nat.mod_eq_of_lt hT
    simp [cbSt, hm]
  by_cases hc : en = true ∧ t + 1 = nxt
  · rw [if_pos hc]
    unfold ScheduleTimerOverflow
    dsimp only
    rw [hs1, show ((cbSt en h p nxt t).now + 1) % u32Mod = t + 1 from by
      rw [show (cbSt en h p nxt t).now = t from rfl]
      exact Nat.mod_eq_of_lt hT]
    rw [CallbackService_single sem (t + 1) en h p nxt (t + 1) hsem, if_pos hc]
    dsimp only
    rw [CalloutService_empty sem maxCo (t + 1)
      (cbSt en h p ((t + 1 + p) % u32Mod) (t + 1)) (by simp [cbSt])]
    dsimp only
    simp [cbSt]
  · rw [if_neg hc]
    unfold ScheduleTimerOverflow
    dsimp only
    rw [hs1, show ((cbSt en h p nxt t).now + 1) % u32Mod = t + 1 from by
      rw [show (cbSt en h p nxt t).now = t from rfl]
      exact Nat.mod_eq_of_lt hT]
    rw [CallbackService_single sem (t + 1) en h p nxt (t + 1) hsem, if_neg hc]
    dsimp only
    rw [CalloutService_empty sem maxCo (t + 1) (cbSt en h p nxt (t + 1))
      (by simp [cbSt])]
    dsimp only
    simp [cbSt]

theorem ScheduleTimerOverflow_coSt (sem : Nat → Sched → Sched) (maxCo h rt t : Nat)
    (hsem : ∀ f s', sem f s' = s') (hmc : 1 ≤ maxCo) (hT : t + 1 < u32Mod) :
    ScheduleTimerOverflow sem maxCo (coSt h rt t maxCo 1) =
      if t + 1 = rt then (coSt h rt (t + 1) maxCo 0, [(t + 1, h)])
      else (coSt h rt (t + 1) maxCo 1, []) := by
  have hs1 : ({ coSt h rt t maxCo 1 with
      now := ((coSt h rt t maxCo 1).now + 1) % u32Mod } : Sched) =
      coSt h rt (t + 1) maxCo 1 := by
    have hm : (t + 1) % u32Mod = t + 1 := Nat.mod_eq_of_lt hT
    simp [coSt, hm]
  by_cases hc : t + 1 = rt
  · rw [if_pos hc]
    unfold ScheduleTimerOverflow
    dsimp only
    rw [hs1, show ((coSt h rt t maxCo 1).now + 1) % u32Mod = t + 1 from by
      rw [show (coSt h rt t maxCo 1).now = t from rfl]
      exact Nat.mod_eq_of_lt hT]
    rw [CallbackService_inert sem (t + 1) (coSt h rt (t + 1) maxCo 1) (by simp [coSt])]
    dsimp only
    rw [CalloutService_single sem maxCo (t + 1) h rt (t + 1) hsem hmc, if_pos hc]
    dsimp only
    simp [coSt]
  · rw [if_neg hc]
    unfold ScheduleTimerOverflow
    dsimp only
    rw [hs1, show ((coSt h rt t maxCo 1).now + 1) % u32Mod = t + 1 from by
      rw [show (coSt h rt t maxCo 1).now = t from rfl]
      exact Nat.mod_eq_of_lt hT]
    rw [CallbackService_inert sem (t + 1) (coSt h rt (t + 1) maxCo 1) (by simp [coSt])]
    dsimp only
    rw [CalloutService_single sem maxCo (t + 1) h rt (t + 1) hsem hmc, if_neg hc]
    dsimp only
    simp [coSt]

theorem ScheduleTimerOverflow_inert (sem : Nat → Sched → Sched) (maxCo : Nat)
    (s : Sched) (hec : s.event_count = 0) (hmap : s.callout_map = 0)
    (hT : s.now + 1 < u32Mod) :
    ScheduleTimerOverflow sem maxCo s = ({ s with now := s.now + 1 }, []) := by
  unfold ScheduleTimerOverflow
  dsimp only
  rw [show (s.now + 1) % u32Mod = s.now + 1 from Nat.mod_eq_of_lt hT]
  rw [CallbackService_inert sem (s.now + 1) { s with now := s.now + 1 }
    (by simp [hec])]
  dsimp only
  rw [CalloutService_empty sem maxCo (s.now + 1) { s with now := s.now + 1 }
    (by simp [hmap])]
  dsimp only
  simp

theorem dispatchN_add (sem : Nat → Sched → Sched) (maxCo : Nat) :
    ∀ a b s, dispatchN sem maxCo (a + b) s =
      ((dispatchN sem maxCo b (dispatchN sem maxCo a s).1).1,
        (dispatchN sem maxCo a s).2 ++
          (dispatchN sem maxCo b (dispatchN sem maxCo a s).1).2) := by
  intro a
  induction a with
  | zero =>
    intro b s
    simp [dispatchN]
  | succ a ih =>
    intro b s
    have hadd : a + 1 + b = (a + b) + 1 := by omega
    rw [hadd]
    simp only [dispatchN]
    rw [ih b (ScheduleTimerOverflow sem maxCo s).1]
    simp [List.append_assoc]

theorem dispatchN_inert (sem : Nat → Sched → Sched) (maxCo : Nat) :
    ∀ n s, s.event_count = 0 → s.callout_map = 0 → s.now + n < u32Mod →
      dispatchN sem maxCo n s = ({ s with now := s.now + n }, []) := by
  intro n
  induction n with
  | zero =>
    intro s h1 h2 h3
    simp [dispatchN]
  | succ n ih =>
    intro s h1 h2 h3
    simp only [dispatchN]
    rw [ScheduleTimerOverflow_inert sem maxCo s h1 h2 (by omega)]
    dsimp only
    rw [ih { s with now := s.now + 1 } (by simp [h1]) (by simp [h2])
      (by simp; omega)]
    have harith : s.now + 1 + n = s.now + (n + 1) := by omega
    simp [harith]

/-! ### One-shot callout behavior (claim C3) -/

theorem coSt_noFire_block (sem : Nat → Sched → Sched) (maxCo h rt : Nat)
    (hsem : ∀ f s', sem f s' = s') (hmc : 1 ≤ maxCo) :
    ∀ j t, (∀ k, 1 ≤ k → k ≤ j → t + k ≠ rt) → t + j < u32Mod →
      dispatchN sem maxCo j (coSt h rt t maxCo 1) = (coSt h rt (t + j) maxCo 1, []) := by
  intro j
  induction j with
  | zero =>
    intro t hk hT
    simp [dispatchN]
  | succ j ih =>
    intro t hk hT
    simp only [dispatchN]
    rw [ScheduleTimerOverflow_coSt sem maxCo h rt t hsem hmc (by omega),
        if_neg (hk 1 (by omega) (by omega))]
    dsimp only
    rw [ih (t + 1) (fun k h1 h2 => by
      rw [show t + 1 + k = t + (k + 1) from by omega]
      exact hk (k + 1) (by omega) (by omega)) (by omega)]
    have harith : t + 1 + j = t + (j + 1) := by omega
    simp [harith]

theorem coSt_run_lt (sem : Nat → Sched → Sched) (maxCo h rt m t : Nat)
    (hsem : ∀ f s', sem f s' = s') (hmc : 1 ≤ maxCo)
    (hlt : t + m < rt) (hT : t + m < u32Mod) :
    dispatchN sem maxCo m (coSt h rt t maxCo 1) = (coSt h rt (t + m) maxCo 1, []) :=
  coSt_noFire_block sem maxCo h rt hsem hmc m t
    (fun k h1 h2 => by omega) hT

theorem coSt_run_ge (sem : Nat → Sched → Sched) (maxCo h rt m t : Nat)
    (hsem : ∀ f s', sem f s' = s') (hmc : 1 ≤ maxCo)
    (htrt : t < rt) (hge : rt ≤ t + m) (hT : t + m < u32Mod) :
    dispatchN sem maxCo m (coSt h rt t maxCo 1) =
      (coSt h rt (t + m) maxCo 0, [(rt, h)]) := by
  have hd : (rt - t) + (m - (rt - t)) = m := by omega
  have key := dispatchN_add sem maxCo (rt - t) (m - (rt - t)) (coSt h rt t maxCo 1)
  rw [hd] at key
  rw [key]
  have hfire : dispatchN sem maxCo (rt - t) (coSt h rt t maxCo 1) =
      (coSt h rt rt maxCo 0, [(rt, h)]) := by
    have hd2 : (rt - t - 1) + 1 = rt - t := by omega
    have key2 := dispatchN_add sem maxCo (rt - t - 1) 1 (coSt h rt t maxCo 1)
    rw [hd2] at key2
    rw [key2]
    rw [coSt_noFire_block sem maxCo h rt hsem hmc (rt - t - 1) t
      (fun k h1 h2 => by omega) (by omega)]
    dsimp only
    simp only [dispatchN]
    rw [ScheduleTimerOverflow_coSt sem maxCo h rt (t + (rt - t - 1)) hsem hmc (by omega)]
    rw [if_pos (by omega)]
    dsimp only
    rw [show t + (rt - t - 1) + 1 = rt from by omega]
    simp
  rw [hfire]
  dsimp only
  rw [dispatchN_inert sem maxCo (m - (rt - t)) (coSt h rt rt maxCo 0)
    (by simp [coSt]) (by simp [coSt]) (by simp [coSt]; omega)]
  have harith : rt + (m - (rt - t)) = t + m := by omega
  simp [coSt, harith]

theorem findFreeSlot_zero (n : Nat) (hn : 1 ≤ n) : findFreeSlot 0 n = some 0 := by
  obtain ⟨m, hmd⟩ : ∃ m, n = m + 1 := ⟨n - 1, by omega⟩
  subst hmd
  unfold findFreeSlot findFreeAux
  simp

theorem register_single_callout (maxCo h D T : Nat) (hmc : 1 ≤ maxCo)
    (hTD : T + D < u32Mod) :
    (CalloutRegister maxCo h D { initSched 0 maxCo with now := T }).2 =
      coSt h (T + D) T maxCo 1 := by
  obtain ⟨mc, hmcd⟩ : ∃ mc, maxCo = mc + 1 := ⟨maxCo - 1, by omega⟩
  subst hmcd
  unfold CalloutRegister
  rw [if_pos (by
    simp only [initSched]
    rw [show get_callout_map_size 0 = 0 from rfl]
    omega)]
  rw [show ({ initSched 0 (mc + 1) with now := T } : Sched).callout_map = 0 from by simp [initSched],
      findFreeSlot_zero (mc + 1) (by omega)]
  have hrt : (T + D * _MILLISECOND) % u32Mod = T + D := by
    rw [show D * _MILLISECOND = D from by simp [_MILLISECOND]]
    exact Nat.mod_eq_of_lt hTD
  simp [initSched, coSt, hrt, List.replicate_succ]

theorem register_succeeds_empty (maxCo g D' : Nat) (s : Sched)
    (hmap : s.callout_map = 0) (hmc : 1 ≤ maxCo) :
    (CalloutRegister maxCo g D' s).1 = true := by
  unfold CalloutRegister
  rw [if_pos (by rw [hmap, show get_callout_map_size 0 = 0 from rfl]; omega)]
  rw [hmap, findFreeSlot_zero maxCo hmc]

/-- C3: a callout registered with delay D ≥ 1 at tick T (callout table
otherwise empty, handlers performing no scheduler mutation, no counter wrap)
fires exactly once, at tick T+D: over m ticks the trace is empty while m < D
and exactly [(T+D, handler)] once m ≥ D; its occupancy bit is cleared when it
fires (map 1 before, 0 after) and a subsequent registration then succeeds.
Conjoined: the spec's concrete capacity-2 scenario — A (handler 10, delay 5)
and B (handler 11, delay 3) registered at tick 0; B fires at tick 3, A at
tick 5, the map is then empty and registering C (handler 12, delay 2) at
tick 5 succeeds. -/
theorem C3_callout_oneshot (sem : Nat → Sched → Sched) (maxCo h D T m : Nat)
    (hsem : ∀ f s', sem f s' = s') (hmc : 1 ≤ maxCo) (hD : 1 ≤ D)
    (hTm : T + m < u32Mod) (hTD : T + D < u32Mod) :
    ((dispatchN sem maxCo m
        (CalloutRegister maxCo h D { initSched 0 maxCo with now := T }).2).2 =
      if m < D then [] else [(T + D, h)]) ∧
    ((dispatchN sem maxCo m
        (CalloutRegister maxCo h D { initSched 0 maxCo with now := T }).2).1.callout_map =
      if m < D then 1 else 0) ∧
    (∀ g D', D ≤ m →
      (CalloutRegister maxCo g D'
        (dispatchN sem maxCo m
          (CalloutRegister maxCo h D { initSched 0 maxCo with now := T }).2).1).1 = true) ∧
    ((dispatchN semId 2 3 calloutScenarioAB).2 = [(3, 11)] ∧
      (dispatchN semId 2 5 calloutScenarioAB).2 = [(3, 11), (5, 10)] ∧
      (dispatchN semId 2 5 calloutScenarioAB).1.callout_map = 0 ∧
      (CalloutRegister 2 12 2 (dispatchN semId 2 5 calloutScenarioAB).1).1 = true) := by
  rw [register_single_callout maxCo h D T hmc hTD]
  by_cases hm : m < D
  · rw [coSt_run_lt sem maxCo h (T + D) m T hsem hmc (by omega) (by omega)]
    refine ⟨by simp [hm], by simp [hm, coSt], ?_, by decide⟩
    intro g D' hge
    omega
  · rw [coSt_run_ge sem maxCo h (T + D) m T hsem hmc (by omega) (by omega) (by omega)]
    refine ⟨by simp [hm], by simp [hm, coSt], ?_, by decide⟩
    intro g D' hge
    exact register_succeeds_empty maxCo g D' _ (by simp [coSt]) hmc

/-- C3 witness: concrete instance of the one-shot theorem at handler 7,
delay 3, registration tick 0, 5 ticks serviced, capacity 2. -/
theorem C3_witness :
    (dispatchN semId 2 5 (CalloutRegister 2 7 3 { initSched 0 2 with now := 0 }).2).2 =
      [(3, 7)] := by
  have hmain := (C3_callout_oneshot semId 2 7 3 0 5 (fun f s' => rfl) (by omega)
    (by omega) (by norm_num [u32Mod]) (by norm_num [u32Mod])).1
  simpa using hmain

/-! ### Periodic callback behavior (claim C1) -/

theorem cbSt_noFire_block (sem : Nat → Sched → Sched) (maxCo : Nat) (en : Bool)
    (h p nxt : Nat) (hsem : ∀ f s', sem f s' = s') :
    ∀ j t, (∀ k, 1 ≤ k → k ≤ j → ¬(en = true ∧ t + k = nxt)) → t + j < u32Mod →
      dispatchN sem maxCo j (cbSt en h p nxt t) = (cbSt en h p nxt (t + j), []) := by
  intro j
  induction j with
  | zero =>
    intro t hk hT
    simp [dispatchN]
  | succ j ih =>
    intro t hk hT
    simp only [dispatchN]
    rw [ScheduleTimerOverflow_cbSt sem maxCo en h p nxt t hsem (by omega),
        if_neg (hk 1 (by omega) (by omega))]
    dsimp only
    rw [ih (t + 1) (fun k h1 h2 => by
      rw [show t + 1 + k = t + (k + 1) from by omega]
      exact hk (k + 1) (by omega) (by omega)) (by omega)]
    have harith : t + 1 + j = t + (j + 1) := by omega
    simp [harith]

theorem cbSt_fire_block (sem : Nat → Sched → Sched) (maxCo h p : Nat)
    (hsem : ∀ f s', sem f s' = s') (hp : 1 ≤ p) :
    ∀ t, t + p + p < u32Mod →
      dispatchN sem maxCo p (cbSt true h p (t + p) t) =
        (cbSt true h p (t + p + p) (t + p), [(t + p, h)]) := by
  intro t hT
  have key := dispatchN_add sem maxCo (p - 1) 1 (cbSt true h p (t + p) t)
  rw [show p - 1 + 1 = p from by omega] at key
  rw [key]
  rw [cbSt_noFire_block sem maxCo true h p (t + p) hsem (p - 1) t
    (fun k h1 h2 => by intro hK; omega) (by omega)]
  dsimp only
  simp only [dispatchN]
  rw [ScheduleTimerOverflow_cbSt sem maxCo true h p (t + p) (t + (p - 1)) hsem (by omega)]
  rw [if_pos ⟨rfl, by omega⟩]
  dsimp only
  rw [show t + (p - 1) + 1 = t + p from by omega]
  rw [Nat.mod_eq_of_lt (show t + p + p < u32Mod from hT)]
  simp

theorem cbSt_blocks (sem : Nat → Sched → Sched) (maxCo h p : Nat)
    (hsem : ∀ f s', sem f s' = s') (hp : 1 ≤ p) :
    ∀ k t, t + k * p + p < u32Mod →
      dispatchN sem maxCo (k * p) (cbSt true h p (t + p) t) =
        (cbSt true h p (t + k * p + p) (t + k * p),
          (List.range k).map (fun j => (t + (j + 1) * p, h))) := by
  intro k
  induction k with
  | zero =>
    intro t hT
    simp [dispatchN]
  | succ k ih =>
    intro t hT
    have hmul : (k + 1) * p = p + k * p := by ring
    have key := dispatchN_add sem maxCo p (k * p) (cbSt true h p (t + p) t)
    rw [← hmul] at key
    rw [key]
    rw [cbSt_fire_block sem maxCo h p hsem hp t (by omega)]
    dsimp only
    rw [ih (t + p) (by omega)]
    have e1 : t + p + k * p = t + (k + 1) * p := by omega
    rw [e1]
    dsimp only
    congr 1
    rw [List.range_succ_eq_map, List.map_cons, List.map_map, List.singleton_append]
    congr 1
    · congr 1
      ring
    · apply List.map_congr_left
      intro a ha
      simp only [Function.comp, Nat.succ_eq_add_one]
      congr 1
      ring

theorem cbSt_run (sem : Nat → Sched → Sched) (maxCo h p m t : Nat)
    (hsem : ∀ f s', sem f s' = s') (hp : 1 ≤ p) (hU : t + m + p < u32Mod) :
    dispatchN sem maxCo m (cbSt true h p (t + p) t) =
      (cbSt true h p (t + m / p * p + p) (t + m),
        (List.range (m / p)).map (fun j => (t + (j + 1) * p, h))) := by
  have hdm : m / p * p + m % p = m := by
    rw [Nat.mul_comm]
    exact Nat.div_add_mod m p
  have hmle : m / p * p ≤ m := Nat.div_mul_le_self m p
  have key := dispatchN_add sem maxCo (m / p * p) (m % p) (cbSt true h p (t + p) t)
  rw [show m / p * p + m % p = m from hdm] at key
  rw [key]
  rw [cbSt_blocks sem maxCo h p hsem hp (m / p) t (by omega)]
  dsimp only
  have hmod : m % p < p := Nat.mod_lt _ (by omega)
  rw [cbSt_noFire_block sem maxCo true h p (t + m / p * p + p) hsem (m % p)
    (t + m / p * p) (fun k h1 h2 => by intro hK; omega) (by omega)]
  have e1 : t + m / p * p + m % p = t + m := by omega
  rw [e1]
  simp

theorem cbSt_disable (h p nxt t : Nat) :
    CallbackMode h false (cbSt true h p nxt t) = cbSt false h p nxt t := by
  unfold CallbackMode
  rw [show (cbSt true h p nxt t).event_count = 1 from rfl]
  rw [range_find?_some _ 1 0 (by omega) (by simp [cbSt]) (fun k hk => by omega)]
  simp [cbSt]

theorem register_enable_single (h P T : Nat) (hP : 2 ≤ P) (hU : T + P < u32Mod) :
    CallbackMode h true (CallbackRegister 1 h P { initSched 1 0 with now := T }).2 =
      cbSt true h (P - 1) (T + (P - 1)) T := by
  have hU32 : u32Mod = 4294967296 := rfl
  have hreg : (CallbackRegister 1 h P { initSched 1 0 with now := T }).2 =
      cbSt false h (P - 1) ((T + P) % u32Mod) T := by
    unfold CallbackRegister
    rw [if_pos (by simp only [initSched]; decide)]
    have hPU : T + P < 4294967296 := by omega
    have hrt : (P + (u32Mod - 1)) % u32Mod = P - 1 := by
      rw [hU32]
      omega
    have hnx : (T + P * _MILLISECOND) % u32Mod = (T + P) % u32Mod := by
      rw [show P * _MILLISECOND = P from by simp [_MILLISECOND]]
    simp [initSched, cbSt, hrt, hnx]
  rw [hreg]
  unfold CallbackMode
  rw [show (cbSt false h (P - 1) ((T + P) % u32Mod) T).event_count = 1 from rfl]
  rw [range_find?_some _ 1 0 (by omega) (by simp [cbSt]) (fun k hk => by omega)]
  have hnx2 : (T + (P - 1) * _MILLISECOND) % u32Mod = T + (P - 1) := by
    rw [show (P - 1) * _MILLISECOND = P - 1 from by simp [_MILLISECOND]]
    apply Nat.mod_eq_of_lt
    omega
  simp [cbSt, hnx2]

/-- C1 (amended): the claim's period is off by one on the code.  A handler
registered with requested period P (P ≥ 2) and enabled at tick T — with the
table holding only this entry, handlers performing no scheduler mutation and
no counter wrap — fires exactly at ticks T + (P−1), T + 2(P−1), T + 3(P−1), …:
over m ticks the trace is exactly the firings at T + (k+1)(P−1) for
k < m/(P−1), in order.  Once disabled via CallbackMode it fires no more: any
further n ticks produce an empty trace. -/
theorem C1_amended_period (sem : Nat → Sched → Sched) (maxCo h P T m : Nat)
    (hsem : ∀ f s', sem f s' = s') (hP : 2 ≤ P) (hU : T + m + P < u32Mod) :
    ((dispatchN sem maxCo m
        (CallbackMode h true
          (CallbackRegister 1 h P { initSched 1 0 with now := T }).2)).2 =
      (List.range (m / (P - 1))).map (fun j => (T + (j + 1) * (P - 1), h))) ∧
    ∀ n, T + m + n < u32Mod →
      (dispatchN sem maxCo n
        (CallbackMode h false
          (dispatchN sem maxCo m
            (CallbackMode h true
              (CallbackRegister 1 h P { initSched 1 0 with now := T }).2)).1)).2 = [] := by
  rw [register_enable_single h P T hP (by omega)]
  have hbase := cbSt_run sem maxCo h (P - 1) m T hsem (by omega) (by omega)
  constructor
  · rw [hbase]
  · intro n hn
    rw [hbase]
    dsimp only
    rw [cbSt_disable h (P - 1) (T + m / (P - 1) * (P - 1) + (P - 1)) (T + m)]
    rw [cbSt_noFire_block sem maxCo false h (P - 1)
      (T + m / (P - 1) * (P - 1) + (P - 1)) hsem n (T + m)
      (fun k h1 h2 => by simp) (by omega)]

/-- C1 witness: handler 7, requested period 3, enabled at tick 0, 7 ticks:
fires at ticks 2, 4 and 6 (observable period 3 − 1 = 2). -/
theorem C1_witness :
    (dispatchN semId 0 7 (CallbackMode 7 true
        (CallbackRegister 1 7 3 { initSched 1 0 with now := 0 }).2)).2 =
      [(2, 7), (4, 7), (6, 7)] := by
  have hmain := (C1_amended_period semId 0 7 3 0 7 (fun f s' => rfl) (by omega)
    (by norm_num [u32Mod])).1
  rw [hmain]
  decide

/-- C5 (amended): when no handler invocation mutates the scheduler state,
both early-exit service loops are observably equivalent to the unconditional
full scans: same final state and same firing trace (same handlers, same
ascending-index order, same reschedules and occupancy clears).  The claim as
stated — for EVERY table state — fails when a fired handler registers a new
due callout mid-pass (see the counterexample). -/
theorem C5_equiv_no_mutation (sem : Nat → Sched → Sched) (maxCo current : Nat)
    (s : Sched) (hsem : ∀ f s', sem f s' = s') (hec : s.event_count ≤ 255)
    (hmap : s.callout_map < 2 ^ 16) (hco : maxCo ≤ 16) :
    CallbackService sem current s = CallbackServiceFull sem current s ∧
      CalloutService sem maxCo current s = CalloutServiceFull sem maxCo current s := by
  constructor
  · unfold CallbackService CallbackServiceFull
    by_cases h0 : s.event_count = 0
    · rw [if_pos h0, cbFullAux_stop sem current 256 0 s (by omega)]
    · rw [if_neg h0]
      exact cbAux_eq_full sem current hsem 256 0 s.event_count s (by omega) (by omega)
        (by omega)
  · unfold CalloutService CalloutServiceFull
    have hpc := get_callout_map_size_eq_pc s.callout_map
    by_cases h0 : get_callout_map_size s.callout_map = 0
    · rw [if_pos h0]
      have hm0 : s.callout_map = 0 := by
        rw [hpc] at h0
        exact (pc_eq_zero_iff _).mp h0
      rw [coFullAux_stop sem current maxCo 0 s (by rw [hm0]; norm_num)]
    · rw [if_neg h0]
      have hle : pc s.callout_map ≤ 16 := pc_le_of_lt_two_pow 16 s.callout_map hmap
      apply coAux_eq_full sem current hsem maxCo 0 (get_callout_map_size s.callout_map) s
        (by omega) hmap ?_ (by omega) (by omega)
      rw [Nat.shiftRight_zero, hpc]

/-- C5 witness: concrete instance of the equivalence at the one-entry
callback table `cbScenario` with non-mutating handlers. -/
theorem C5_witness :
    CallbackService semId 1 cbScenario = CallbackServiceFull semId 1 cbScenario ∧
      CalloutService semId 2 1 cbScenario = CalloutServiceFull semId 2 1 cbScenario :=
  C5_equiv_no_mutation semId 2 1 cbScenario (fun f s' => rfl) (by decide) (by decide)
    (by omega)

/-! ### No slot is serviced twice in one pass (claim C6) -/

theorem coAux_fst_ge (sem : Nat → Sched → Sched) (current : Nat) :
    ∀ fuel i r s, ∀ q ∈ (CalloutServiceAux sem current fuel i r s).2, i ≤ q.1 := by
  intro fuel
  induction fuel with
  | zero =>
    intro i r s q hq
    simp only [CalloutServiceAux] at hq
    simp at hq
  | succ fuel ih =>
    intro i r s q hq
    rw [coAux_step] at hq
    by_cases hcond : s.callout_map &&& (1 <<< i) ≠ 0 ∧
        current = (s.callout_store.getD i default).run_time
    · rw [if_pos hcond] at hq
      by_cases hexit : (r + 255) % 256 = 0
      · rw [if_pos hexit] at hq
        simp at hq
        simp [hq]
      · rw [if_neg hexit] at hq
        simp at hq
        rcases hq with hq | hq
        · simp [hq]
        · have := ih (i + 1) ((r + 255) % 256) (coFired sem i s) q hq
          omega
    · rw [if_neg hcond] at hq
      have := ih (i + 1) r s q hq
      omega

theorem coAux_pairwise (sem : Nat → Sched → Sched) (current : Nat) :
    ∀ fuel i r s, List.Pairwise (fun a b : Nat × Nat => a.1 < b.1)
      (CalloutServiceAux sem current fuel i r s).2 := by
  intro fuel
  induction fuel with
  | zero =>
    intro i r s
    simp [CalloutServiceAux]
  | succ fuel ih =>
    intro i r s
    rw [coAux_step]
    by_cases hcond : s.callout_map &&& (1 <<< i) ≠ 0 ∧
        current = (s.callout_store.getD i default).run_time
    · rw [if_pos hcond]
      by_cases hexit : (r + 255) % 256 = 0
      · rw [if_pos hexit]
        simp
      · rw [if_neg hexit]
        dsimp only
        refine List.Pairwise.cons ?_ (ih (i + 1) ((r + 255) % 256) (coFired sem i s))
        intro q hq
        have := coAux_fst_ge sem current fuel (i + 1) ((r + 255) % 256)
          (coFired sem i s) q hq
        dsimp only
        omega
    · rw [if_neg hcond]
      exact ih (i + 1) r s

/-- C6 (amended): within one callout service pass the serviced slot indices
are strictly increasing, so no slot is serviced twice in the same pass — in
particular a slot freed earlier in the pass and re-claimed by a registration
issued from a fired handler is never serviced again in that pass, even when
its new fire time equals the current tick (the claim's "except" clause is
refuted by the counterexample). -/
theorem C6_no_double_service (sem : Nat → Sched → Sched) (maxCo current : Nat)
    (s : Sched) :
    List.Pairwise (fun a b : Nat × Nat => a.1 < b.1)
      (CalloutService sem maxCo current s).2 := by
  unfold CalloutService
  by_cases h0 : get_callout_map_size s.callout_map = 0
  · rw [if_pos h0]
    simp
  · rw [if_neg h0]
    exact coAux_pairwise sem current maxCo 0 _ s

/-! ### Frame effects of firing and cancelling callouts (claim C10) -/

theorem land_submask (m c j : Nat) (h : (m &&& c) &&& (1 <<< j) ≠ 0) :
    m &&& (1 <<< j) ≠ 0 := by
  rw [land_shiftLeft_ne_zero_iff] at h ⊢
  rw [Nat.testBit_and] at h
  simp at h
  exact h.1

theorem coAux_frame (sem : Nat → Sched → Sched) (current : Nat)
    (hsem : ∀ f s', sem f s' = s') :
    ∀ fuel i r s,
      (CalloutServiceAux sem current fuel i r s).1.callout_store = s.callout_store ∧
      (CalloutServiceAux sem current fuel i r s).1.callback_store = s.callback_store ∧
      (CalloutServiceAux sem current fuel i r s).1.event_count = s.event_count ∧
      (CalloutServiceAux sem current fuel i r s).1.now = s.now ∧
      ∀ j, (CalloutServiceAux sem current fuel i r s).1.callout_map &&& (1 <<< j) ≠ 0 →
        s.callout_map &&& (1 <<< j) ≠ 0 := by
  intro fuel
  induction fuel with
  | zero =>
    intro i r s
    exact ⟨rfl, rfl, rfl, rfl, fun j hj => hj⟩
  | succ fuel ih =>
    intro i r s
    rw [coAux_step]
    have hco : coFired sem i s = { s with callout_map := s.callout_map &&& clearMask i } := by
      unfold coFired
      rw [hsem]
    by_cases hcond : s.callout_map &&& (1 <<< i) ≠ 0 ∧
        current = (s.callout_store.getD i default).run_time
    · rw [if_pos hcond, hco]
      by_cases hexit : (r + 255) % 256 = 0
      · rw [if_pos hexit]
        exact ⟨rfl, rfl, rfl, rfl, fun j hj => land_submask _ _ _ hj⟩
      · rw [if_neg hexit]
        dsimp only
        obtain ⟨h1, h2, h3, h4, h5⟩ :=
          ih (i + 1) ((r + 255) % 256) { s with callout_map := s.callout_map &&& clearMask i }
        exact ⟨h1, h2, h3, h4, fun j hj => land_submask _ _ _ (h5 j hj)⟩
    · rw [if_neg hcond]
      exact ih (i + 1) r s

/-- C10: when a callout fires during a service pass (with handlers that do
not mutate the scheduler) or is removed by CalloutCancel, only occupancy-map
bits are cleared: the slot array (stored handler pointers and fire times),
the callback table, the event counter and the clock are unchanged, and every
bit set afterwards was set before — so a vacant slot can still hold the
handler pointer of a previously fired or cancelled callout. -/
theorem C10_frame_effects (sem : Nat → Sched → Sched) (maxCo current f : Nat)
    (s : Sched) (hsem : ∀ g s', sem g s' = s') :
    ((CalloutCancel maxCo f s).callout_store = s.callout_store ∧
      (CalloutCancel maxCo f s).callback_store = s.callback_store ∧
      (CalloutCancel maxCo f s).event_count = s.event_count ∧
      (CalloutCancel maxCo f s).now = s.now ∧
      ∀ j, (CalloutCancel maxCo f s).callout_map &&& (1 <<< j) ≠ 0 →
        s.callout_map &&& (1 <<< j) ≠ 0) ∧
    ((CalloutService sem maxCo current s).1.callout_store = s.callout_store ∧
      (CalloutService sem maxCo current s).1.callback_store = s.callback_store ∧
      (CalloutService sem maxCo current s).1.event_count = s.event_count ∧
      (CalloutService sem maxCo current s).1.now = s.now ∧
      ∀ j, (CalloutService sem maxCo current s).1.callout_map &&& (1 <<< j) ≠ 0 →
        s.callout_map &&& (1 <<< j) ≠ 0) := by
  constructor
  · unfold CalloutCancel
    split
    · exact ⟨rfl, rfl, rfl, rfl, fun j hj => hj⟩
    · exact ⟨rfl, rfl, rfl, rfl, fun j hj => land_submask _ _ _ hj⟩
  · unfold CalloutService
    by_cases h0 : get_callout_map_size s.callout_map = 0
    · rw [if_pos h0]
      exact ⟨rfl, rfl, rfl, rfl, fun j hj => hj⟩
    · rw [if_neg h0]
      exact coAux_frame sem current hsem maxCo 0 _ s

/-- C10 witness: concrete instance at the API-built `staleSlotScenario` with
non-mutating handlers: cancelling handler 7 and servicing a tick both leave
the slot array (including the stale stored handler) untouched. -/
theorem C10_witness :
    (CalloutCancel 2 7 staleSlotScenario).callout_store =
        staleSlotScenario.callout_store ∧
      (CalloutService semId 2 2 staleSlotScenario).1.callout_store =
        staleSlotScenario.callout_store := by
  have hmain := C10_frame_effects semId 2 2 7 staleSlotScenario (fun g s' => rfl)
  exact ⟨hmain.1.1, hmain.2.1⟩

/-- C4 (amended): CalloutCancel clears the occupancy bit of the first slot BY
INDEX whose STORED handler pointer equals the argument, whether or not that
slot's occupancy bit is set (the occupancy map is never consulted during the
scan); when no slot stores the handler the call is a no-op and reports no
error.  The claim's "first occupied slot" is refuted by the counterexample,
where a vacant slot's stale handler shadows a later occupied one. -/
theorem C4_cancel_first_stored_match (maxCo f : Nat) (s : Sched) :
    ((∀ k, k < maxCo → (s.callout_store.getD k default).func ≠ f) →
      CalloutCancel maxCo f s = s) ∧
    (∀ j, j < maxCo → (s.callout_store.getD j default).func = f →
      (∀ k, k < j → (s.callout_store.getD k default).func ≠ f) →
      CalloutCancel maxCo f s =
        { s with callout_map := s.callout_map &&& clearMask j }) := by
  constructor
  · intro hnone
    unfold CalloutCancel
    rw [range_find?_none _ maxCo (fun k hk => decide_eq_false (hnone k hk))]
  · intro j hj hfj hfirst
    unfold CalloutCancel
    rw [range_find?_some _ maxCo j hj (decide_eq_true hfj)
      (fun k hk => decide_eq_false (hfirst k hk))]

/-- C4 witness: at the API-built `staleSlotScenario`, cancelling an
unregistered handler (9) is a no-op, and cancelling handler 7 clears the bit
of slot 0 — the first slot storing 7 by index. -/
theorem C4_witness :
    CalloutCancel 2 9 staleSlotScenario = staleSlotScenario ∧
      CalloutCancel 2 7 staleSlotScenario =
        { staleSlotScenario with
          callout_map := staleSlotScenario.callout_map &&& clearMask 0 } := by
  have h1 := (C4_cancel_first_stored_match 2 9 staleSlotScenario).1
  have h2 := (C4_cancel_first_stored_match 2 7 staleSlotScenario).2
  exact ⟨h1 (by decide), h2 0 (by decide) (by decide) (fun k hk => by omega)⟩

/-- C7 (amended): CallbackMode affects only the first entry (lowest index
below event_count) whose stored handler equals the argument; it sets that
entry's enabled flag, and on the transition to enabled recomputes
next_fire_tick as now() + the STORED run_time field — which CallbackRegister
stores as requested_period − 1 — so re-enabling at tick T' schedules the
next firing at T' + (P − 1), not T' + P (the claim's now() + P is refuted by
the counterexample).  If no entry matches, the call is a no-op. -/
theorem C7_mode_first_match (f : Nat) (s : Sched) :
    (∀ mo, (∀ k, k < s.event_count → (s.callback_store.getD k default).func ≠ f) →
      CallbackMode f mo s = s) ∧
    (∀ j, j < s.event_count → (s.callback_store.getD j default).func = f →
      (∀ k, k < j → (s.callback_store.getD k default).func ≠ f) →
      (CallbackMode f true s =
        { s with callback_store := (s.callback_store.set j
            { s.callback_store.getD j default with
              enabled := true
              next_run_time := (s.now +
                (s.callback_store.getD j default).run_time * _MILLISECOND) %
                  u32Mod }) } ∧
       CallbackMode f false s =
        { s with callback_store := (s.callback_store.set j
            { s.callback_store.getD j default with enabled := false }) })) ∧
    (∀ T P g, 2 ≤ P → T + P < u32Mod →
      ((CallbackMode g true
          (CallbackRegister 1 g P { initSched 1 0 with now := T }).2).callback_store.getD
            0 default).next_run_time = T + (P - 1)) := by
  refine ⟨?_, ?_, ?_⟩
  · intro mo hnone
    unfold CallbackMode
    rw [range_find?_none _ s.event_count (fun k hk => decide_eq_false (hnone k hk))]
  · intro j hj hfj hfirst
    constructor
    · unfold CallbackMode
      rw [range_find?_some _ s.event_count j hj (decide_eq_true hfj)
        (fun k hk => decide_eq_false (hfirst k hk))]
      rfl
    · unfold CallbackMode
      rw [range_find?_some _ s.event_count j hj (decide_eq_true hfj)
        (fun k hk => decide_eq_false (hfirst k hk))]
      rfl
  · intro T P g hP hU
    rw [register_enable_single g P T hP hU]
    rfl

/-- C7 witness: concrete instance — handler 7 registered with period 3 in a
one-entry table at tick 0; enabling sets next_run_time to 0 + (3 − 1) = 2,
disabling only clears the flag, and cancelling an unknown handler is a
no-op. -/
theorem C7_witness :
    CallbackMode 9 true (CallbackRegister 1 7 3 (initSched 1 0)).2 =
        (CallbackRegister 1 7 3 (initSched 1 0)).2 ∧
      ((CallbackMode 7 true
          (CallbackRegister 1 7 3 { initSched 1 0 with now := 0 }).2).callback_store.getD
            0 default).next_run_time = 0 + (3 - 1) := by
  have h1 := (C7_mode_first_match 9 (CallbackRegister 1 7 3 (initSched 1 0)).2).1
  have h3 := (C7_mode_first_match 7 (initSched 1 0)).2.2
  exact ⟨h1 true (by decide), h3 0 3 7 (by omega) (by norm_num [u32Mod])⟩

/-! ### The tick counter (claims C8 and C9) -/

theorem cbAux_now (sem : Nat → Sched → Sched) (current : Nat)
    (hsem : ∀ f s', (sem f s').now = s'.now) :
    ∀ fuel i r s, (CallbackServiceAux sem current fuel i r s).1.now = s.now := by
  intro fuel
  induction fuel with
  | zero => intro i r s; rfl
  | succ fuel ih =>
    intro i r s
    rw [cbAux_step]
    have hfired : (cbFired sem current i s).now = s.now := by
      simp [cbFired, hsem]
    by_cases hlt : i < s.event_count
    · rw [if_pos hlt]
      by_cases hdue : (s.callback_store.getD i default).enabled = true ∧
          current = (s.callback_store.getD i default).next_run_time
      · rw [if_pos hdue]
        by_cases hexit : (r + 255) % 256 = 0
        · rw [if_pos hexit]
          exact hfired
        · rw [if_neg hexit]
          dsimp only
          rw [ih (i + 1) ((r + 255) % 256) (cbFired sem current i s), hfired]
      · rw [if_neg hdue]
        exact ih (i + 1) r s
    · rw [if_neg hlt]

theorem coAux_now (sem : Nat → Sched → Sched) (current : Nat)
    (hsem : ∀ f s', (sem f s').now = s'.now) :
    ∀ fuel i r s, (CalloutServiceAux sem current fuel i r s).1.now = s.now := by
  intro fuel
  induction fuel with
  | zero => intro i r s; rfl
  | succ fuel ih =>
    intro i r s
    rw [coAux_step]
    have hfired : (coFired sem i s).now = s.now := by
      simp [coFired, hsem]
    by_cases hcond : s.callout_map &&& (1 <<< i) ≠ 0 ∧
        current = (s.callout_store.getD i default).run_time
    · rw [if_pos hcond]
      by_cases hexit : (r + 255) % 256 = 0
      · rw [if_pos hexit]
        exact hfired
      · rw [if_neg hexit]
        dsimp only
        rw [ih (i + 1) ((r + 255) % 256) (coFired sem i s), hfired]
    · rw [if_neg hcond]
      exact ih (i + 1) r s

theorem CallbackService_now (sem : Nat → Sched → Sched) (current : Nat) (s : Sched)
    (hsem : ∀ f s', (sem f s').now = s'.now) :
    (CallbackService sem current s).1.now = s.now := by
  unfold CallbackService
  by_cases h0 : s.event_count = 0
  · rw [if_pos h0]
  · rw [if_neg h0]
    exact cbAux_now sem current hsem 256 0 s.event_count s

theorem CalloutService_now (sem : Nat → Sched → Sched) (maxCo current : Nat) (s : Sched)
    (hsem : ∀ f s', (sem f s').now = s'.now) :
    (CalloutService sem maxCo current s).1.now = s.now := by
  unfold CalloutService
  by_cases h0 : get_callout_map_size s.callout_map = 0
  · rw [if_pos h0]
  · rw [if_neg h0]
    exact coAux_now sem current hsem maxCo 0 _ s

theorem dispatch_now (sem : Nat → Sched → Sched) (maxCo : Nat) (s : Sched)
    (hsem : ∀ f s', (sem f s').now = s'.now) :
    (ScheduleTimerOverflow sem maxCo s).1.now = (s.now + 1) % u32Mod := by
  unfold ScheduleTimerOverflow
  dsimp only
  rw [CalloutService_now sem maxCo _ _ hsem, CallbackService_now sem _ _ hsem]

theorem dispatchN_now (sem : Nat → Sched → Sched) (maxCo : Nat)
    (hsem : ∀ f s', (sem f s').now = s'.now) :
    ∀ N s, s.now < u32Mod →
      (dispatchN sem maxCo N s).1.now = (s.now + N) % u32Mod := by
  intro N
  induction N with
  | zero =>
    intro s hs
    simp [dispatchN, Nat.mod_eq_of_lt hs]
  | succ N ih =>
    intro s hs
    simp only [dispatchN]
    have hstep := dispatch_now sem maxCo s hsem
    rw [ih (ScheduleTimerOverflow sem maxCo s).1 (by rw [hstep]; exact Nat.mod_lt _ (by norm_num [u32Mod])), hstep]
    rw [Nat.mod_add_mod]
    have : s.now + 1 + N = s.now + (N + 1) := by omega
    rw [this]

/-- C8: starting from the zero-initialised state, after any N tick-advance
invocations (with handlers that never write the clock — no scheduler API
does) current_tick equals N mod 2^32; moreover every single invocation
advances the counter by exactly one modulo 2^32 (silent wrap, no other
effect on the counter). -/
theorem C8_tick_counter (sem : Nat → Sched → Sched) (maxCo a b N : Nat)
    (hsem : ∀ f s', (sem f s').now = s'.now) :
    TimeNow (dispatchN sem maxCo N (initSched a b)).1 = N % u32Mod ∧
      ∀ s : Sched, (ScheduleTimerOverflow sem maxCo s).1.now = (s.now + 1) % u32Mod := by
  constructor
  · unfold TimeNow
    rw [dispatchN_now sem maxCo hsem N (initSched a b) (by norm_num [initSched, u32Mod])]
    simp [initSched]
  · intro s
    exact dispatch_now sem maxCo s hsem

/-- C8 witness: five ticks from the initial state leave the counter at
5 mod 2^32. -/
theorem C8_witness :
    TimeNow (dispatchN semId 1 5 (initSched 1 1)).1 = 5 % u32Mod :=
  (C8_tick_counter semId 1 1 1 5 (fun _ _ => rfl)).1

/-- C9: every tick-advance executes exactly: advance the clock by one (mod
2^32), then service the callback table, then service the callout table, both
with the freshly incremented tick, the trace being the callback firings
followed by the callout firings at that tick.  Conjoined: in the API-built
state where callback 7 and callout 9 are both due at tick 1, the trace of one
tick is [(1, 7), (1, 9)] — the callback handler strictly before the callout
handler. -/
theorem C9_dispatch_order (sem : Nat → Sched → Sched) (maxCo : Nat) (s : Sched) :
    (ScheduleTimerOverflow sem maxCo s =
      ((CalloutService sem maxCo ((TimeNow s + 1) % u32Mod)
          (CallbackService sem ((TimeNow s + 1) % u32Mod)
            { s with now := (TimeNow s + 1) % u32Mod }).1).1,
        ((CallbackService sem ((TimeNow s + 1) % u32Mod)
            { s with now := (TimeNow s + 1) % u32Mod }).2 ++
          (CalloutService sem maxCo ((TimeNow s + 1) % u32Mod)
            (CallbackService sem ((TimeNow s + 1) % u32Mod)
              { s with now := (TimeNow s + 1) % u32Mod }).1).2).map
          (fun q => ((TimeNow s + 1) % u32Mod, q.2)))) ∧
    (dispatchN semId 1 1 bothTablesDueState).2 = [(1, 7), (1, 9)] := by
  exact ⟨rfl, by decide⟩
